import Mathlib

/-!
Shallow embedding of the tell-cpp client core (property buffer, validator,
wire encoder, worker channel, retry loop, client facade payload assembly),
with theorems checking the specification's claims against the code.

Bytes are modelled as `Nat` values (< 256 at every producer), buffers as
`List Nat`.  Pointer-plus-length pairs from the C++ API are modelled as
`Option (List Nat)` (a null pointer is `none`).  Imperative buffer writes
become functional appends; `memcpy` patches become take/append/drop.
-/

namespace Tell

/-- Little-endian bytes of a `u16` value (`write_u16` payload). -/
def u16le (v : Nat) : List Nat :=
  [v % 256, v / 256 % 256]

/-- Little-endian bytes of a `u32` value (`write_u32` payload). -/
def u32le (v : Nat) : List Nat :=
  [v % 256, v / 256 % 256, v / 65536 % 256, v / 16777216 % 256]

/-- Little-endian bytes of a `u64` value (`write_u64` payload). -/
def u64le (v : Nat) : List Nat :=
  [v % 256, v / 2 ^ 8 % 256, v / 2 ^ 16 % 256, v / 2 ^ 24 % 256,
   v / 2 ^ 32 % 256, v / 2 ^ 40 % 256, v / 2 ^ 48 % 256, v / 2 ^ 56 % 256]

/-- src/encoding.hpp `write_u16`: append two little-endian bytes. -/
def write_u16 (buf : List Nat) (v : Nat) : List Nat :=
  buf ++ u16le v

/-- src/encoding.hpp `write_u32`: append four little-endian bytes. -/
def write_u32 (buf : List Nat) (v : Nat) : List Nat :=
  buf ++ u32le v

/-- src/encoding.hpp `write_i32`: the `int32_t -> uint32_t` cast round-trip is
the identity for the in-range non-negative `size_t` differences passed here, so
the argument is kept as `Nat`. -/
def write_i32 (buf : List Nat) (v : Nat) : List Nat :=
  write_u32 buf v

/-- src/encoding.hpp `write_u64`: append eight little-endian bytes. -/
def write_u64 (buf : List Nat) (v : Nat) : List Nat :=
  buf ++ u64le v

/-- src/encoding.hpp `align4`: pad with zero bytes until the size is a
multiple of 4 (the `while` loop appends exactly `(4 - len % 4) % 4` zeros). -/
def align4 (buf : List Nat) : List Nat :=
  buf ++ List.replicate ((4 - buf.length % 4) % 4) 0

/-- src/encoding.hpp `write_byte_vector`: `[u32 length][data]`; the length is
clamped to 0 beyond `UINT32_MAX`, and the bytes are copied only when the
pointer is non-null and the length positive.  The C++ start-position return
value is recovered by callers as the buffer length before the call. -/
def write_byte_vector (buf : List Nat) (data : Option (List Nat)) (len : Nat) :
    List Nat :=
  let buf := write_u32 buf (if len > 4294967295 then 0 else len)
  match data with
  | some d => if len > 0 then buf ++ d.take len else buf
  | none => buf

/-- src/encoding.hpp `write_string`: `[u32 length][data][NUL]`. -/
def write_string (buf : List Nat) (s : Option (List Nat)) (len : Nat) :
    List Nat :=
  let buf := write_u32 buf (if len > 4294967295 then 0 else len)
  let buf :=
    match s with
    | some str => if len > 0 then buf ++ str.take len else buf
    | none => buf
  buf ++ [0]

/-- src/encoding.hpp `patch_u32`: overwrite 4 bytes at `pos` in place. -/
def patch_u32 (buf : List Nat) (pos : Nat) (v : Nat) : List Nat :=
  buf.take pos ++ u32le v ++ buf.drop (pos + 4)

/-- src/encoding.hpp `patch_offset`: store `target - offset_pos` (a `size_t`
difference truncated to `uint32_t`) at `offset_pos`. -/
def patch_offset (buf : List Nat) (offset_pos target : Nat) : List Nat :=
  patch_u32 buf offset_pos ((target - offset_pos) % 4294967296)

/-- include/tell/error.hpp `ErrorKind`. -/
inductive ErrorKind where
  | Configuration
  | Validation
  | Network
  | Serialization
  | Closed
  | Io
deriving DecidableEq, Repr

/-- include/tell/error.hpp `TellError` (kind plus message parts). -/
structure TellError where
  kind : ErrorKind
  message : String
deriving DecidableEq, Repr

/-- `TellError::validation(field, reason)`. -/
def TellError.validation (field reason : String) : TellError :=
  { kind := ErrorKind.Validation,
    message := "validation error: " ++ field ++ " " ++ reason }

/-- `TellError::configuration(msg)`. -/
def TellError.configuration (msg : String) : TellError :=
  { kind := ErrorKind.Configuration, message := "configuration error: " ++ msg }

/-- `TellError::network(msg)`. -/
def TellError.network (msg : String) : TellError :=
  { kind := ErrorKind.Network, message := "network error: " ++ msg }

/-- include/tell/types.hpp `EventType`. -/
inductive EventType where
  | Unknown
  | Track
  | Identify
  | Group
  | Alias
  | Enrich
  | Context
deriving DecidableEq, Repr

/-- Byte value of an `EventType` (the `uint8_t` enum value). -/
def EventType.toByte : EventType → Nat
  | .Unknown => 0
  | .Track => 1
  | .Identify => 2
  | .Group => 3
  | .Alias => 4
  | .Enrich => 5
  | .Context => 6

/-- include/tell/types.hpp `SchemaType`. -/
inductive SchemaType where
  | Unknown
  | Event
  | Log
deriving DecidableEq, Repr

/-- Byte value of a `SchemaType`. -/
def SchemaType.toByte : SchemaType → Nat
  | .Unknown => 0
  | .Event => 1
  | .Log => 2

/-- include/tell/types.hpp `LogLevel` (RFC 5424 plus Trace). -/
inductive LogLevel where
  | Emergency
  | Alert
  | Critical
  | Error
  | Warning
  | Notice
  | Info
  | Debug
  | Trace
deriving DecidableEq, Repr

/-- Shared by `Props::needs_escape` and client.cpp `needs_escape`: a byte is
escaped when it is a double quote, a backslash, or below 0x20. -/
def needs_escape (c : Nat) : Bool :=
  c == 34 || c == 92 || decide (c < 32)

/-- One lowercase hex digit character, as produced by `snprintf %04x`. -/
def hex_digit_lower (n : Nat) : Nat :=
  if n < 10 then 48 + n else 87 + n

/-- Four lowercase hex digit characters of a byte value (`%04x`). -/
def hex4 (c : Nat) : List Nat :=
  [hex_digit_lower (c / 4096 % 16), hex_digit_lower (c / 256 % 16),
   hex_digit_lower (c / 16 % 16), hex_digit_lower (c % 16)]

/-- The `switch` arm of the escapers: bytes appended for one character that
needs escaping (client.cpp lines 64-78 and props.hpp lines 128-142). -/
def esc_switch (c : Nat) : List Nat :=
  if c = 34 then [92, 34]
  else if c = 92 then [92, 92]
  else if c = 8 then [92, 98]
  else if c = 12 then [92, 102]
  else if c = 10 then [92, 110]
  else if c = 13 then [92, 114]
  else if c = 9 then [92, 116]
  else [92, 117] ++ hex4 c

/-- The run-based escaper loop shared by `Props::write_escaped` and client.cpp
`append_escaped`: bulk-copy the maximal run of safe characters, then escape one
character, and repeat.  The loop is driven by fuel equal to the input length;
every iteration on a non-empty input consumes at least one character, so the
fuel never runs out. -/
def append_escaped_go : Nat → List Nat → List Nat → List Nat
  | 0, buf, _ => buf
  | fuel + 1, buf, s =>
    let run := s.takeWhile (fun c => !needs_escape c)
    let buf' := buf ++ run
    match s.drop run.length with
    | [] => buf'
    | c :: rest => append_escaped_go fuel (buf' ++ esc_switch c) rest

/-- client.cpp `append_escaped` (and the body of `Props::write_escaped`):
append the escaped form of `s` to `buf`. -/
def append_escaped (buf s : List Nat) : List Nat :=
  append_escaped_go s.length buf s

/-- Per-character escaping as described by the specification: quote and
backslash get a preceding backslash, the five named control characters their
two-character form, all other characters below 0x20 the six-character
lowercase form, and everything else passes through unchanged. -/
def escSpec (c : Nat) : List Nat :=
  if c = 34 then [92, 34]
  else if c = 92 then [92, 92]
  else if c = 8 then [92, 98]
  else if c = 12 then [92, 102]
  else if c = 10 then [92, 110]
  else if c = 13 then [92, 114]
  else if c = 9 then [92, 116]
  else if c < 32 then [92, 117, 48, 48, hex_digit_lower (c / 16), hex_digit_lower (c % 16)]
  else [c]

/-- include/tell/props.hpp `Props`: the escaped textual interior of a JSON
object (`buf_`) together with the field count (`count_`). -/
structure Props where
  buf : List Nat
  count : Nat
deriving DecidableEq, Repr

/-- An empty `Props` (default construction). -/
def Props.mk0 : Props := { buf := [], count := 0 }

/-- `Props::begin_field`: comma separator when non-empty, then the quoted
escaped key and a colon. -/
def Props.begin_field (p : Props) (key : List Nat) : Props :=
  let b := if p.count > 0 then p.buf ++ [44] else p.buf
  { buf := append_escaped (b ++ [34]) key ++ [34, 58], count := p.count + 1 }

/-- `Props::add(key, string value)`: quoted escaped value. -/
def Props.add (p : Props) (key value : List Nat) : Props :=
  let p := p.begin_field key
  { p with buf := append_escaped (p.buf ++ [34]) value ++ [34] }

/-- `Props::add(key, bool value)` (used only to exercise non-string values). -/
def Props.addBool (p : Props) (key : List Nat) (value : Bool) : Props :=
  let p := p.begin_field key
  { p with buf := p.buf ++ (if value then [116, 114, 117, 101] else [102, 97, 108, 115, 101]) }

/-- `Props::to_json_bytes`: wrap the interior with braces. -/
def Props.to_json_bytes (p : Props) : List Nat :=
  [123] ++ p.buf ++ [125]

/-- `Props::empty`. -/
def Props.isEmpty (p : Props) : Bool := p.count == 0

/-- `Props::raw`: the interior bytes without braces. -/
def Props.raw (p : Props) : List Nat := p.buf

/-- client.cpp `parse_props_into_map`, key-unescape switch (lines 101-111):
the recognised short escapes are mapped back, any other escaped character is
kept with its backslash. -/
def unesc_char (e : Nat) : List Nat :=
  if e = 34 then [34]
  else if e = 92 then [92]
  else if e = 47 then [47]
  else if e = 98 then [8]
  else if e = 102 then [12]
  else if e = 110 then [10]
  else if e = 114 then [13]
  else if e = 116 then [9]
  else [92, e]

/-- client.cpp `parse_props_into_map`, key loop (lines 97-117): read and
unescape characters until an unescaped closing quote or the end of input; a
trailing lone backslash is kept literally.  Returns the key and the remaining
input (starting at the closing quote when one was found). -/
def scan_key : List Nat → List Nat × List Nat
  | [] => ([], [])
  | c :: rest =>
    if c = 34 then ([], c :: rest)
    else if c = 92 then
      match rest with
      | [] => ([92], [])
      | e :: rest' => (unesc_char e ++ (scan_key rest').1, (scan_key rest').2)
    else (c :: (scan_key rest).1, (scan_key rest).2)

/-- client.cpp `parse_props_into_map`, string-value loop (lines 124-134),
entered after the opening quote: escape pairs are skipped verbatim, and the
scan stops after an unescaped closing quote.  Returns the consumed bytes
(closing quote included) and the remaining input. -/
def scan_str : List Nat → List Nat × List Nat
  | [] => ([], [])
  | c :: rest =>
    if c = 92 then
      match rest with
      | [] => ([92], [])
      | e :: rest' => (92 :: e :: (scan_str rest').1, (scan_str rest').2)
    else if c = 34 then ([34], rest)
    else (c :: (scan_str rest).1, (scan_str rest).2)

/-- Lexicographic byte order on keys (`std::map<std::string, ...>` order;
`std::char_traits<char>` compares as unsigned char). -/
def lexLt : List Nat → List Nat → Bool
  | [], [] => false
  | [], _ :: _ => true
  | _ :: _, [] => false
  | a :: as, b :: bs => if a < b then true else if b < a then false else lexLt as bs

/-- A `std::map<std::string, std::vector<uint8_t>>`: an association list kept
sorted by `lexLt` on the key. -/
abbrev PropMap := List (List Nat × List Nat)

/-- `map[key] = value`: ordered insert-or-replace. -/
def map_insert (m : PropMap) (k v : List Nat) : PropMap :=
  match m with
  | [] => [(k, v)]
  | (k', v') :: rest =>
    if lexLt k k' then (k, v) :: (k', v') :: rest
    else if lexLt k' k then (k', v') :: map_insert rest k v
    else (k, v) :: rest

/-- client.cpp `parse_props_into_map` outer loop, fuelled: each iteration
consumes at least the opening quote, so fuel equal to the input length is
enough; the loop stops at the end of input or at a byte that is not `"`. -/
def parse_props_go : Nat → List Nat → PropMap → PropMap
  | 0, _, m => m
  | fuel + 1, raw, m =>
    match raw with
    | [] => m
    | c :: rest =>
      if c ≠ 34 then m
      else
        let kr := scan_key rest
        let r2 := match kr.2 with
          | _ :: t => t
          | [] => []
        let r3 := match r2 with
          | 58 :: t => t
          | other => other
        let vr : List Nat × List Nat :=
          match r3 with
          | 34 :: t => (34 :: (scan_str t).1, (scan_str t).2)
          | other => (other.takeWhile (fun b => b ≠ 44), other.dropWhile (fun b => b ≠ 44))
        let m' := map_insert m kr.1 vr.1
        let r5 := match vr.2 with
          | 44 :: t => t
          | other => other
        parse_props_go fuel r5 m'

/-- client.cpp `parse_props_into_map`: parse `Props` raw bytes
(`"k1":v1,"k2":v2,...`) into the map, upserting entries. -/
def parse_props_into_map (raw : List Nat) (m : PropMap) : PropMap :=
  parse_props_go raw.length raw m

/-- One rendered super-property entry: quoted re-escaped key, colon, raw
value bytes (client.cpp lines 217-224). -/
def render_entry (k v : List Nat) : List Nat :=
  append_escaped [34] k ++ [34, 58] ++ v

/-- The comma-joined rendering of all map entries in map order. -/
def render_fields : PropMap → List Nat
  | [] => []
  | [(k, v)] => render_entry k v
  | (k, v) :: e :: rest => render_entry k v ++ [44] ++ render_fields (e :: rest)

/-- client.cpp `Tell::Inner::read_super_props`: empty bytes for an empty map,
otherwise the comma-joined entries in map order. -/
def read_super_props (m : PropMap) : List Nat :=
  match m with
  | [] => []
  | entries => render_fields entries

/-- client.cpp `Tell::register_props`: no-op on an empty `Props`, otherwise
parse the raw interior into the super-property map. -/
def register_props (m : PropMap) (p : Props) : PropMap :=
  if p.isEmpty then m else parse_props_into_map p.raw m

/-- client.cpp `merge_json_payload`: `{key_colon "value"[, super][, per-call]}`
— the per-call properties' interior (brace stripped) is appended last; when
there are no per-call properties the object is closed directly. -/
def merge_json_payload (key_colon : List Nat) (value : List Nat)
    (props_json : Option (List Nat)) (super_props_raw : Option (List Nat)) :
    List Nat :=
  let props_inner : Option (List Nat) :=
    match props_json with
    | some pj => if pj.length > 2 ∧ pj.headI = 123 then some (pj.drop 1) else none
    | none => none
  let buf := [123] ++ key_colon ++ [34] ++ append_escaped [] value ++ [34]
  let buf :=
    match super_props_raw with
    | some sp => if sp ≠ [] then buf ++ [44] ++ sp else buf
    | none => buf
  match props_inner with
  | some pi => buf ++ [44] ++ pi
  | none => buf ++ [125]

/-- src/validation.hpp `check_user_id`: non-empty. -/
def check_user_id (user_id : List Nat) : Bool :=
  !user_id.isEmpty

/-- src/validation.hpp `check_event_name`: non-empty and at most 256 bytes. -/
def check_event_name (name : List Nat) : Bool :=
  !name.isEmpty && name.length ≤ 256

/-- src/validation.hpp `check_log_message`: non-empty and at most 65536 bytes. -/
def check_log_message (message : List Nat) : Bool :=
  !message.isEmpty && message.length ≤ 65536

/-- src/validation.hpp `check_service_name`: at most 256 bytes, empty allowed. -/
def check_service_name (service : List Nat) : Bool :=
  service.length ≤ 256

/-- src/validation.hpp `hex_val`: digit value of a hex character, -1 when the
character is not a hex digit. -/
def hex_val (c : Nat) : Int :=
  if 48 ≤ c ∧ c ≤ 57 then (c : Int) - 48
  else if 97 ≤ c ∧ c ≤ 102 then (c : Int) - 97 + 10
  else if 65 ≤ c ∧ c ≤ 70 then (c : Int) - 65 + 10
  else -1

/-- src/validation.hpp `validate_and_decode_api_key` inner loop: decode
consecutive character pairs (`bytes[i] = hi << 4 | lo`, which equals
`16 * hi + lo` for digit values), throwing on the first non-hex character. -/
def decode_hex_pairs : List Nat → Except TellError (List Nat)
  | [] => Except.ok []
  | [_] => Except.ok []
  | hi :: lo :: rest =>
    let h := hex_val hi
    let l := hex_val lo
    if h < 0 ∨ l < 0 then
      Except.error (TellError.configuration ("apiKey contains non-hex character"))
    else
      match decode_hex_pairs rest with
      | Except.ok bs => Except.ok ((h * 16 + l).toNat :: bs)
      | Except.error e => Except.error e

/-- src/validation.hpp `validate_and_decode_api_key`: exactly 32 characters,
then 16 decoded bytes; failures raise Configuration errors. -/
def validate_and_decode_api_key (api_key : List Nat) : Except TellError (List Nat) :=
  if api_key.length ≠ 32 then
    Except.error (TellError.configuration ("apiKey must be 32 hex characters"))
  else decode_hex_pairs api_key

/-- The decoded-key part of `TellConfig` relevant to the claims. -/
structure TellConfig where
  api_key_bytes : List Nat
deriving DecidableEq, Repr

/-- src/config.cpp `TellConfigBuilder::build`: runs the api-key validation and
decoding at construction; the Configuration error propagates to the creating
caller (the C++ `throw` becomes `Except.error`). -/
def TellConfigBuilder.build (api_key : List Nat) : Except TellError TellConfig :=
  match validate_and_decode_api_key api_key with
  | Except.ok bs => Except.ok { api_key_bytes := bs }
  | Except.error e => Except.error e

/-- src/worker.hpp `QueuedEvent`. -/
structure QueuedEvent where
  event_type : EventType
  timestamp : Nat
  device_id : List Nat
  session_id : List Nat
  event_name : List Nat
  payload : List Nat
deriving DecidableEq, Repr

/-- src/worker.hpp `QueuedLog`. -/
structure QueuedLog where
  level : LogLevel
  timestamp : Nat
  session_id : List Nat
  source : List Nat
  service : List Nat
  payload : List Nat
deriving DecidableEq, Repr

/-- Byte string literal helper: code points of a Lean string literal. -/
def strBytes (s : String) : List Nat :=
  s.data.map Char.toNat

/-- client.cpp `Tell::track` (lines 248-275): validation, then the merged
payload; an error return models exactly one error-callback invocation with no
record enqueued, an ok return models the enqueued record.  The wall clock,
device id and session snapshot are passed as parameters. -/
def Client.track (sp : PropMap) (ts : Nat) (device session : List Nat)
    (user_id event_name : List Nat) (properties : Props) :
    Except TellError QueuedEvent :=
  if !check_user_id user_id then
    Except.error (TellError.validation ("userId") ("is required"))
  else if !check_event_name event_name then
    Except.error (TellError.validation ("eventName")
      (if event_name.isEmpty then "is required" else "must be at most 256 characters"))
  else
    let props_json : Option (List Nat) :=
      if properties.isEmpty then none else some properties.to_json_bytes
    let sp_raw := read_super_props sp
    let payload := merge_json_payload (strBytes ("\"user_id\":")) user_id
      props_json (if sp_raw = [] then none else some sp_raw)
    Except.ok { event_type := EventType.Track, timestamp := ts,
                device_id := device, session_id := session,
                event_name := event_name, payload := payload }

/-- client.cpp `Tell::identify` (lines 277-304): user id validation and the
`{"user_id":...[,"traits":{...}]}` payload (no super-property merging). -/
def Client.identify (ts : Nat) (device session : List Nat)
    (user_id : List Nat) (traits : Props) : Except TellError QueuedEvent :=
  if !check_user_id user_id then
    Except.error (TellError.validation ("userId") ("is required"))
  else
    let buf := append_escaped (strBytes ("\x7b\"user_id\":\"")) user_id ++ [34]
    let buf :=
      if !traits.isEmpty then
        buf ++ strBytes (",\"traits\":") ++ traits.to_json_bytes
      else buf
    Except.ok { event_type := EventType.Identify, timestamp := ts,
                device_id := device, session_id := session,
                event_name := [], payload := buf ++ [125] }

/-- client.cpp `Tell::group` (lines 306-352). -/
def Client.group (sp : PropMap) (ts : Nat) (device session : List Nat)
    (user_id group_id : List Nat) (properties : Props) :
    Except TellError QueuedEvent :=
  if !check_user_id user_id then
    Except.error (TellError.validation ("userId") ("is required"))
  else if group_id.isEmpty then
    Except.error (TellError.validation ("groupId") ("is required"))
  else
    let props_json : Option (List Nat) :=
      if properties.isEmpty then none else some properties.to_json_bytes
    let sp_raw := read_super_props sp
    let buf := [123] ++ append_escaped (strBytes ("\"group_id\":\"")) group_id ++ [34]
    let buf := append_escaped (buf ++ strBytes (",\"user_id\":\"")) user_id ++ [34]
    let buf := if sp_raw ≠ [] then buf ++ [44] ++ sp_raw else buf
    let buf :=
      match props_json with
      | some pj =>
        if pj ≠ [] ∧ pj.length > 2 ∧ pj.headI = 123 then buf ++ [44] ++ pj.drop 1
        else buf ++ [125]
      | none => buf ++ [125]
    Except.ok { event_type := EventType.Group, timestamp := ts,
                device_id := device, session_id := session,
                event_name := [], payload := buf }

/-- client.cpp `Tell::revenue` (lines 354-421): validation (`amount <= 0.0`
rejects), then an Order Completed Track record.  The C++ double is modelled as
a rational for the comparison; its `%g` rendering is passed in as
`amount_str` (floating-point text formatting is not modelled). -/
def Client.revenue (sp : PropMap) (ts : Nat) (device session : List Nat)
    (user_id : List Nat) (amount : ℚ) (amount_str : List Nat)
    (currency order_id : List Nat) (properties : Props) :
    Except TellError QueuedEvent :=
  if !check_user_id user_id then
    Except.error (TellError.validation ("userId") ("is required"))
  else if amount ≤ 0 then
    Except.error (TellError.validation ("amount") ("must be positive"))
  else if currency.isEmpty then
    Except.error (TellError.validation ("currency") ("is required"))
  else if order_id.isEmpty then
    Except.error (TellError.validation ("orderId") ("is required"))
  else
    let props_json : Option (List Nat) :=
      if properties.isEmpty then none else some properties.to_json_bytes
    let sp_raw := read_super_props sp
    let buf := [123] ++ append_escaped (strBytes ("\"user_id\":\"")) user_id ++ [34]
    let buf := buf ++ strBytes (",\"amount\":") ++ amount_str
    let buf := append_escaped (buf ++ strBytes (",\"currency\":\"")) currency ++ [34]
    let buf := append_escaped (buf ++ strBytes (",\"order_id\":\"")) order_id ++ [34]
    let buf := if sp_raw ≠ [] then buf ++ [44] ++ sp_raw else buf
    let buf :=
      match props_json with
      | some pj =>
        if pj ≠ [] ∧ pj.length > 2 ∧ pj.headI = 123 then buf ++ [44] ++ pj.drop 1
        else buf ++ [125]
      | none => buf ++ [125]
    Except.ok { event_type := EventType.Track, timestamp := ts,
                device_id := device, session_id := session,
                event_name := strBytes ("Order Completed"), payload := buf }

/-- client.cpp `Tell::alias` (lines 423-450). -/
def Client.alias (ts : Nat) (device session : List Nat)
    (previous_id user_id : List Nat) : Except TellError QueuedEvent :=
  if previous_id.isEmpty then
    Except.error (TellError.validation ("previousId") ("is required"))
  else if !check_user_id user_id then
    Except.error (TellError.validation ("userId") ("is required"))
  else
    let buf := append_escaped (strBytes ("\x7b\"previous_id\":\"")) previous_id
    let buf := append_escaped (buf ++ strBytes ("\",\"user_id\":\"")) user_id
    Except.ok { event_type := EventType.Alias, timestamp := ts,
                device_id := device, session_id := session,
                event_name := [], payload := buf ++ [34, 125] }

/-- client.cpp `Tell::log` (lines 454-478): message and service validation,
then the `{"message":...[, data]}` payload (super properties not merged). -/
def Client.log (ts : Nat) (session : List Nat) (level : LogLevel)
    (message service : List Nat) (data : Props) : Except TellError QueuedLog :=
  if !check_log_message message then
    Except.error (TellError.validation ("message")
      (if message.isEmpty then "is required" else "must be at most 65536 characters"))
  else if !check_service_name service then
    Except.error (TellError.validation ("service") ("must be at most 256 characters"))
  else
    let data_json : Option (List Nat) :=
      if data.isEmpty then none else some data.to_json_bytes
    let payload := merge_json_payload (strBytes ("\"message\":")) message data_json none
    Except.ok { level := level, timestamp := ts, session_id := session,
                source := [], service := service, payload := payload }

/-- src/worker.hpp `MAX_QUEUE_SIZE`. -/
def MAX_QUEUE_SIZE : Nat := 10000

/-- src/worker.cpp `Worker::enqueue` (lines 39-54), channel discipline only:
when the queue already holds `MAX_QUEUE_SIZE` messages the front (oldest) one
is popped, then the new message is pushed at the back.  The function is total:
the producer never waits for space. -/
def Worker.enqueue {α : Type} (q : List α) (m : α) : List α :=
  let q := if MAX_QUEUE_SIZE ≤ q.length then q.drop 1 else q
  q ++ [m]

/-- Observable actions of one retry worker (src/worker.cpp `Worker::retry_send`).
The sleep duration (exponential backoff with jitter) is elided: it is computed
in floating point and no claim depends on its value. -/
inductive RetryEvent where
  | sleep
  | sendAttempt (ok : Bool)
  | reportError (e : TellError)
deriving DecidableEq, Repr

/-- The Network error emitted on retry exhaustion. -/
def retryExhaustedError (max_retries : Nat) : TellError :=
  TellError.network ("send failed after " ++ toString max_retries ++ " retries")

/-- src/worker.cpp `Worker::retry_send` loop (lines 275-295): `remaining`
attempts starting at number `attempt`; each attempt sleeps, then sends; a
success returns immediately, exhaustion reports one Network error naming
`max_retries`.  `send_ok` is the oracle for the transport outcome of each
numbered attempt. -/
def retry_send_go (max_retries : Nat) (send_ok : Nat → Bool) :
    Nat → Nat → List RetryEvent
  | 0, _ => [RetryEvent.reportError (retryExhaustedError max_retries)]
  | remaining + 1, attempt =>
    RetryEvent.sleep :: RetryEvent.sendAttempt (send_ok attempt) ::
      (if send_ok attempt then []
       else retry_send_go max_retries send_ok remaining (attempt + 1))

/-- src/worker.cpp `Worker::retry_send`: attempts numbered 1 to `max_retries`. -/
def retry_send (max_retries : Nat) (send_ok : Nat → Bool) : List RetryEvent :=
  retry_send_go max_retries send_ok max_retries 1

/-- Observation: the action is a send attempt. -/
def RetryEvent.isSend : RetryEvent → Bool
  | RetryEvent.sendAttempt _ => true
  | _ => false

/-- Observation: the action is an error-callback invocation. -/
def RetryEvent.isReport : RetryEvent → Bool
  | RetryEvent.reportError _ => true
  | _ => false

/-- src/encoding.hpp `EventParams`: pointer/length pairs become optional byte
lists (none = null pointer); `device_id`/`session_id` point at 16-byte
arrays. -/
structure EventParams where
  event_type : EventType := EventType.Unknown
  timestamp : Nat := 0
  service : Option (List Nat) := none
  device_id : Option (List Nat) := none
  session_id : Option (List Nat) := none
  event_name : Option (List Nat) := none
  payload : Option (List Nat) := none
deriving DecidableEq, Repr

/-- src/encoding.hpp `encode_event_into` (lines 92-178): standalone FlatBuffer
with root offset, 18-byte vtable (+2 pad), 36-byte table, then the aligned
vectors and strings, and finally the offset patches. -/
def encode_event_into (buf : List Nat) (p : EventParams) : List Nat :=
  let has_device_id := p.device_id.isSome
  let has_session_id := p.session_id.isSome
  let has_service := p.service.isSome
  let has_event_name := p.event_name.isSome
  let payload_len := (p.payload.getD []).length
  let has_payload := p.payload.isSome ∧ payload_len > 0
  let root_pos := buf.length
  let buf := buf ++ List.replicate 4 0
  let vtable_start := buf.length
  let buf := write_u16 buf 18
  let buf := write_u16 buf 36
  let buf := write_u16 buf 28
  let buf := write_u16 buf 20
  let buf := write_u16 buf (if has_service then 32 else 0)
  let buf := write_u16 buf (if has_device_id then 4 else 0)
  let buf := write_u16 buf (if has_session_id then 8 else 0)
  let buf := write_u16 buf (if has_event_name then 12 else 0)
  let buf := write_u16 buf (if has_payload then 16 else 0)
  let buf := buf ++ [0, 0]
  let table_start := buf.length
  let buf := write_i32 buf (table_start - vtable_start)
  let device_id_off_pos := buf.length
  let buf := write_u32 buf 0
  let session_id_off_pos := buf.length
  let buf := write_u32 buf 0
  let event_name_off_pos := buf.length
  let buf := write_u32 buf 0
  let payload_off_pos := buf.length
  let buf := write_u32 buf 0
  let buf := write_u64 buf p.timestamp
  let buf := buf ++ [p.event_type.toByte]
  let buf := buf ++ [0, 0, 0]
  let service_off_pos := buf.length
  let buf := write_u32 buf 0
  let buf := align4 buf
  let device_id_start := buf.length
  let buf := if has_device_id then align4 (write_byte_vector buf p.device_id 16) else buf
  let session_id_start := buf.length
  let buf := if has_session_id then align4 (write_byte_vector buf p.session_id 16) else buf
  let service_start := buf.length
  let buf := if has_service then
    align4 (write_string buf p.service (p.service.getD []).length) else buf
  let event_name_start := buf.length
  let buf := if has_event_name then
    align4 (write_string buf p.event_name (p.event_name.getD []).length) else buf
  let payload_start := buf.length
  let buf := if has_payload then write_byte_vector buf p.payload payload_len else buf
  let buf := patch_u32 buf root_pos ((table_start - root_pos) % 4294967296)
  let buf := if has_device_id then patch_offset buf device_id_off_pos device_id_start else buf
  let buf := if has_session_id then patch_offset buf session_id_off_pos session_id_start else buf
  let buf := if has_service then patch_offset buf service_off_pos service_start else buf
  let buf := if has_event_name then patch_offset buf event_name_off_pos event_name_start else buf
  let buf := if has_payload then patch_offset buf payload_off_pos payload_start else buf
  buf

/-- src/encoding.hpp `BatchParams` (`version` is a `uint8_t`). -/
structure BatchParams where
  api_key : Option (List Nat) := none
  schema_type : SchemaType := SchemaType.Event
  version : Nat := 100
  batch_id : Nat := 0
  data : Option (List Nat) := none
deriving DecidableEq, Repr

/-- src/encoding.hpp `DEFAULT_VERSION`. -/
def DEFAULT_VERSION : Nat := 100

/-- src/encoding.hpp `encode_batch_into` (lines 397-447): 16-byte vtable,
32-byte table, api_key and data vectors, then the offset patches.  Note the
root-offset patch stores the absolute `table_start`, not the distance from
`base` (line 444 of the source). -/
def encode_batch_into (buf : List Nat) (p : BatchParams) : List Nat :=
  let has_batch_id := p.batch_id ≠ 0
  let version := if p.version = 0 then DEFAULT_VERSION else p.version
  let base := buf.length
  let buf := buf ++ List.replicate 4 0
  let vtable_start := buf.length
  let buf := write_u16 buf 16
  let buf := write_u16 buf 32
  let buf := write_u16 buf 4
  let buf := write_u16 buf 24
  let buf := write_u16 buf 25
  let buf := write_u16 buf (if has_batch_id then 16 else 0)
  let buf := write_u16 buf 8
  let buf := write_u16 buf 0
  let table_start := buf.length
  let buf := write_i32 buf (table_start - vtable_start)
  let api_key_off_pos := buf.length
  let buf := write_u32 buf 0
  let data_off_pos := buf.length
  let buf := write_u32 buf 0
  let buf := write_u32 buf 0
  let buf := write_u64 buf p.batch_id
  let buf := buf ++ [p.schema_type.toByte]
  let buf := buf ++ [version]
  let buf := buf ++ [0, 0]
  let buf := align4 buf
  let api_key_start := buf.length
  let buf := write_byte_vector buf p.api_key 16
  let buf := align4 buf
  let data_start := buf.length
  let buf := write_byte_vector buf p.data (p.data.getD []).length
  let buf := patch_u32 buf base (table_start % 4294967296)
  let buf := patch_offset buf api_key_off_pos api_key_start
  let buf := patch_offset buf data_off_pos data_start
  buf

/-- Prefix test on byte lists (used to count substring occurrences). -/
def starts_with : List Nat → List Nat → Bool
  | [], _ => true
  | _ :: _, [] => false
  | p :: ps, c :: cs => p == c && starts_with ps cs

/-- Number of positions at which `pat` occurs in `l`. -/
def count_sub (pat : List Nat) : List Nat → Nat
  | [] => 0
  | c :: rest => (if starts_with pat (c :: rest) then 1 else 0) + count_sub pat rest

/-- Result observation for the facade: the call reported exactly one
Validation error through the callback and enqueued nothing. -/
def failsValidation {α : Type} : Except TellError α → Bool
  | Except.error e => e.kind == ErrorKind.Validation
  | Except.ok _ => false

/-- Specification-side predicate: a hex digit character `[0-9a-fA-F]`. -/
def isHexDigit (c : Nat) : Bool :=
  (48 ≤ c && c ≤ 57) || (97 ≤ c && c ≤ 102) || (65 ≤ c && c ≤ 70)

/-- Specification-side hex digit value. -/
def hexv (c : Nat) : Nat :=
  if 48 ≤ c ∧ c ≤ 57 then c - 48
  else if 97 ≤ c ∧ c ≤ 102 then c - 87
  else if 65 ≤ c ∧ c ≤ 70 then c - 55
  else 0

/-- Length of a string/vector segment of payload length `n` plus its u32
length word and NUL, rounded up to 4-byte alignment. -/
def pad5 (n : Nat) : Nat :=
  (n + 5) + (4 - (n + 5) % 4) % 4

/-- Byte allowed by claim C10's restriction: not a control character below
0x20, except the five short-escaped ones. -/
def allowedByte (c : Nat) : Bool :=
  decide (32 ≤ c) || c == 8 || c == 12 || c == 10 || c == 13 || c == 9

/-! ## Helper lemmas -/

theorem escSpec_of_escape (c : Nat) (h : needs_escape c = true) :
    escSpec c = esc_switch c := by
  simp only [needs_escape, Bool.or_eq_true, beq_iff_eq, decide_eq_true_eq] at h
  rcases h with (h | h) | h
  · subst h; rfl
  · subst h; rfl
  · interval_cases c <;> rfl

theorem escSpec_of_safe (c : Nat) (h : needs_escape c = false) :
    escSpec c = [c] := by
  simp only [needs_escape, Bool.or_eq_false_iff, beq_eq_false_iff_ne, ne_eq,
    decide_eq_false_iff_not, not_lt] at h
  obtain ⟨⟨h34, h92⟩, h32⟩ := h
  unfold escSpec
  split_ifs <;> first | rfl | omega

theorem flatMap_escSpec_safe (s : List Nat)
    (h : ∀ c ∈ s, needs_escape c = false) : s.flatMap escSpec = s := by
  induction s with
  | nil => rfl
  | cons c rest ih =>
    rw [List.flatMap_cons, escSpec_of_safe c (h c (by simp)),
      ih (fun b hb => h b (by simp [hb]))]
    rfl

theorem drop_takeWhile_length (p : Nat → Bool) (s : List Nat) :
    s.drop (s.takeWhile p).length = s.dropWhile p := by
  have h : s.takeWhile p ++ s.dropWhile p = s :=
    @List.takeWhile_append_dropWhile _ p s
  calc s.drop (s.takeWhile p).length
      = (s.takeWhile p ++ s.dropWhile p).drop (s.takeWhile p).length := by rw [h]
    _ = s.dropWhile p := List.drop_left _ _

theorem dropWhile_head_false (p : Nat → Bool) (s : List Nat) (c : Nat)
    (rest : List Nat) (h : s.dropWhile p = c :: rest) : p c = false := by
  induction s with
  | nil => simp at h
  | cons a as ih =>
    rw [List.dropWhile_cons] at h
    by_cases hp : p a = true
    · exact ih (by simpa [hp] using h)
    · simp only [hp] at h
      simp only [Bool.false_eq_true, if_false] at h
      obtain ⟨rfl, -⟩ := List.cons.injEq .. ▸ h
      simpa using hp

theorem append_escaped_go_eq (fuel : Nat) :
    ∀ s buf : List Nat, s.length ≤ fuel →
      append_escaped_go fuel buf s = buf ++ s.flatMap escSpec := by
  induction fuel with
  | zero =>
    intro s buf hs
    have : s = [] := List.eq_nil_of_length_eq_zero (Nat.le_zero.mp hs)
    subst this
    simp [append_escaped_go]
  | succ fuel ih =>
    intro s buf hs
    have happ : s.takeWhile (fun c => !needs_escape c)
        ++ s.dropWhile (fun c => !needs_escape c) = s :=
      @List.takeWhile_append_dropWhile _ (fun c => !needs_escape c) s
    have hrun : ∀ c ∈ s.takeWhile (fun c => !needs_escape c), needs_escape c = false := by
      intro c hc
      have := List.mem_takeWhile_imp hc
      simpa using this
    rw [append_escaped_go, drop_takeWhile_length]
    rcases hd : s.dropWhile (fun c => !needs_escape c) with _ | ⟨c, rest⟩
    · show buf ++ s.takeWhile (fun c => !needs_escape c) = buf ++ s.flatMap escSpec
      have hs_eq : s.takeWhile (fun c => !needs_escape c) = s := by
        rw [hd, List.append_nil] at happ
        exact happ
      rw [hs_eq, flatMap_escSpec_safe s (hs_eq ▸ hrun)]
    · have hc : needs_escape c = true := by
        have := dropWhile_head_false (fun c => !needs_escape c) s c rest hd
        simpa using this
      have hsplit : s = s.takeWhile (fun c => !needs_escape c) ++ c :: rest := by
        rw [hd] at happ
        exact happ.symm
      have hlen : rest.length ≤ fuel := by
        have := congrArg List.length hsplit
        simp only [List.length_append, List.length_cons] at this
        omega
      show append_escaped_go fuel
        (buf ++ s.takeWhile (fun c => !needs_escape c) ++ esc_switch c) rest
        = buf ++ s.flatMap escSpec
      rw [ih rest _ hlen]
      conv_rhs => rw [hsplit]
      rw [List.flatMap_append, flatMap_escSpec_safe _ hrun, List.flatMap_cons,
        escSpec_of_escape c hc]
      simp [List.append_assoc]

theorem append_escaped_eq (buf s : List Nat) :
    append_escaped buf s = buf ++ s.flatMap escSpec := by
  exact append_escaped_go_eq s.length s buf le_rfl

theorem enqueue_length_le {α : Type} (q : List α) (m : α)
    (h : q.length ≤ MAX_QUEUE_SIZE) :
    (Worker.enqueue q m).length ≤ MAX_QUEUE_SIZE := by
  simp only [MAX_QUEUE_SIZE] at *
  simp only [Worker.enqueue, MAX_QUEUE_SIZE, List.length_append,
    List.length_cons, List.length_nil]
  split_ifs with hfull
  · simp only [List.length_drop]
    omega
  · omega

theorem enqueue_foldl_le {α : Type} (ms : List α) :
    ∀ q : List α, q.length ≤ MAX_QUEUE_SIZE →
      (ms.foldl Worker.enqueue q).length ≤ MAX_QUEUE_SIZE := by
  induction ms with
  | nil => intro q h; simpa using h
  | cons m rest ih =>
    intro q h
    exact ih (Worker.enqueue q m) (enqueue_length_le q m h)

@[simp] theorem isSend_sleep : RetryEvent.isSend RetryEvent.sleep = false := rfl

@[simp] theorem isSend_sendAttempt (b : Bool) :
    RetryEvent.isSend (RetryEvent.sendAttempt b) = true := rfl

@[simp] theorem isSend_reportError (e : TellError) :
    RetryEvent.isSend (RetryEvent.reportError e) = false := rfl

@[simp] theorem isReport_sleep : RetryEvent.isReport RetryEvent.sleep = false := rfl

@[simp] theorem isReport_sendAttempt (b : Bool) :
    RetryEvent.isReport (RetryEvent.sendAttempt b) = false := rfl

@[simp] theorem isReport_reportError (e : TellError) :
    RetryEvent.isReport (RetryEvent.reportError e) = true := rfl

theorem getLast?_cons_ne {α : Type} (a : α) (l : List α) (h : l ≠ []) :
    (a :: l).getLast? = l.getLast? := by
  cases l with
  | nil => exact absurd rfl h
  | cons b t => rfl

theorem retry_send_go_ne_nil (mr : Nat) (ok : Nat → Bool) (r a : Nat) :
    retry_send_go mr ok r a ≠ [] := by
  cases r <;> simp [retry_send_go]

theorem retry_send_go_send_count (mr : Nat) (ok : Nat → Bool) :
    ∀ r a, (retry_send_go mr ok r a).countP RetryEvent.isSend ≤ r := by
  intro r
  induction r with
  | zero => intro a; simp [retry_send_go, List.countP_cons]
  | succ r ih =>
    intro a
    rw [retry_send_go]
    have h2 := ih (a + 1)
    by_cases hok : ok a = true <;>
      simp only [hok, Bool.not_eq_true] at * <;>
      simp [List.countP_cons] <;>
      omega

theorem retry_send_go_sleep_before (mr : Nat) (ok : Nat → Bool) :
    ∀ r a k b, (retry_send_go mr ok r a)[k]? = some (RetryEvent.sendAttempt b) →
      ∃ j, k = j + 1 ∧ (retry_send_go mr ok r a)[j]? = some RetryEvent.sleep := by
  intro r
  induction r with
  | zero =>
    intro a k b h
    rcases k with _ | k <;> simp [retry_send_go] at h
  | succ r ih =>
    intro a k b h
    rcases k with _ | _ | k
    · simp [retry_send_go] at h
    · exact ⟨0, rfl, by simp [retry_send_go]⟩
    · simp only [retry_send_go, List.getElem?_cons_succ] at h
      by_cases hok : ok a = true
      · simp [hok] at h
      · simp only [Bool.not_eq_true] at hok
        simp only [hok, Bool.false_eq_true, if_false] at h
        obtain ⟨j, rfl, hj⟩ := ih (a + 1) k b h
        refine ⟨j + 2, rfl, ?_⟩
        simpa [retry_send_go, hok] using hj

theorem retry_send_go_success (mr : Nat) (ok : Nat → Bool) :
    ∀ r a, (∃ i, a ≤ i ∧ i < a + r ∧ ok i = true) →
      (retry_send_go mr ok r a).countP RetryEvent.isReport = 0 ∧
      (retry_send_go mr ok r a).getLast? = some (RetryEvent.sendAttempt true) := by
  intro r
  induction r with
  | zero =>
    intro a ⟨i, h1, h2, _⟩
    omega
  | succ r ih =>
    intro a ⟨i, h1, h2, h3⟩
    by_cases hok : ok a = true
    · simp [retry_send_go, hok, List.countP_cons, RetryEvent.isReport,
        List.getLast?]
    · simp only [Bool.not_eq_true] at hok
      have hi : a + 1 ≤ i := by
        rcases Nat.eq_or_lt_of_le h1 with rfl | h
        · rw [hok] at h3; exact absurd h3 (by simp)
        · omega
      obtain ⟨hc, hl⟩ := ih (a + 1) ⟨i, hi, by omega, h3⟩
      constructor
      · simp [retry_send_go, hok, List.countP_cons, RetryEvent.isReport, hc]
      · rw [retry_send_go]
        simp only [hok, Bool.false_eq_true, if_false]
        rw [getLast?_cons_ne _ _ (by simp),
          getLast?_cons_ne _ _ (retry_send_go_ne_nil mr ok r (a + 1))]
        exact hl

theorem retry_send_go_fail (mr : Nat) (ok : Nat → Bool) :
    ∀ r a, (∀ i, a ≤ i → i < a + r → ok i = false) →
      (retry_send_go mr ok r a).countP RetryEvent.isReport = 1 ∧
      (retry_send_go mr ok r a).getLast? =
        some (RetryEvent.reportError (retryExhaustedError mr)) := by
  intro r
  induction r with
  | zero =>
    intro a _
    simp [retry_send_go, List.countP_cons, RetryEvent.isReport, List.getLast?]
  | succ r ih =>
    intro a h
    have hok : ok a = false := h a le_rfl (by omega)
    obtain ⟨hc, hl⟩ := ih (a + 1) (fun i h1 h2 => h i (by omega) (by omega))
    constructor
    · simp [retry_send_go, hok, List.countP_cons, RetryEvent.isReport, hc]
    · rw [retry_send_go]
      simp only [hok, Bool.false_eq_true, if_false]
      rw [getLast?_cons_ne _ _ (by simp),
        getLast?_cons_ne _ _ (retry_send_go_ne_nil mr ok r (a + 1))]
      exact hl

theorem hex_val_nonneg_iff (c : Nat) : 0 ≤ hex_val c ↔ isHexDigit c = true := by
  simp only [hex_val, isHexDigit, Bool.or_eq_true, Bool.and_eq_true,
    decide_eq_true_eq]
  split_ifs <;> omega

theorem hex_val_eq_hexv (c : Nat) (h : isHexDigit c = true) :
    hex_val c = (hexv c : Int) := by
  simp only [isHexDigit, Bool.or_eq_true, Bool.and_eq_true,
    decide_eq_true_eq] at h
  simp only [hex_val, hexv]
  split_ifs <;> omega

theorem pair_induction {P : List Nat → Prop} (h0 : P []) (h1 : ∀ x, P [x])
    (h2 : ∀ a b rest, P rest → P (a :: b :: rest)) : ∀ l, P l := by
  intro l
  generalize hl : l.length = n
  induction n using Nat.strong_induction_on generalizing l with
  | _ n ih =>
    match l, hl with
    | [], _ => exact h0
    | [x], _ => exact h1 x
    | a :: b :: rest, hl =>
      have hlt : rest.length < n := by
        simp only [List.length_cons] at hl
        omega
      exact h2 a b rest (ih rest.length hlt rest rfl)

theorem decode_hex_pairs_error_kind :
    ∀ l, ∀ e, decode_hex_pairs l = Except.error e →
      e.kind = ErrorKind.Configuration := by
  refine @pair_induction
    (fun l => ∀ e, decode_hex_pairs l = Except.error e →
      e.kind = ErrorKind.Configuration) ?_ ?_ ?_
  · intro e h
    simp [decode_hex_pairs] at h
  · intro x e h
    simp [decode_hex_pairs] at h
  · intro a b rest ih e he
    simp only [decode_hex_pairs] at he
    split_ifs at he with hneg
    · cases he
      rfl
    · cases hr : decode_hex_pairs rest with
      | error e2 =>
        rw [hr] at he
        cases he
        exact ih _ hr
      | ok bs =>
        rw [hr] at he
        cases he

theorem decode_hex_pairs_ok_iff :
    ∀ l : List Nat, l.length % 2 = 0 →
      ((decode_hex_pairs l).isOk = true ↔ ∀ c ∈ l, isHexDigit c = true) := by
  refine @pair_induction
    (fun l => l.length % 2 = 0 →
      ((decode_hex_pairs l).isOk = true ↔ ∀ c ∈ l, isHexDigit c = true)) ?_ ?_ ?_
  · intro _
    simp [decode_hex_pairs, Except.isOk, Except.toBool]
  · intro x h
    simp at h
  · intro a b rest ih hlen
    have hlen' : rest.length % 2 = 0 := by
      simp only [List.length_cons] at hlen
      omega
    have hiff := ih hlen'
    simp only [decode_hex_pairs]
    split_ifs with hneg
    · constructor
      · intro hx
        simp [Except.isOk, Except.toBool] at hx
      · intro hx
        exfalso
        have h1 := (hex_val_nonneg_iff a).mpr (hx a (by simp))
        have h2 := (hex_val_nonneg_iff b).mpr (hx b (by simp))
        omega
    · push_neg at hneg
      have ha : isHexDigit a = true := (hex_val_nonneg_iff a).mp (by omega)
      have hb : isHexDigit b = true := (hex_val_nonneg_iff b).mp (by omega)
      cases hr : decode_hex_pairs rest with
      | error e2 =>
        rw [hr] at hiff
        constructor
        · intro hx
          simp [Except.isOk, Except.toBool] at hx
        · intro hx
          have hrest : ∀ c ∈ rest, isHexDigit c = true :=
            fun c hc => hx c (by simp [hc])
          have := hiff.mpr hrest
          simp [Except.isOk, Except.toBool] at this
      | ok bs =>
        rw [hr] at hiff
        simp only [Except.isOk, Except.toBool] at hiff ⊢
        simp only [List.mem_cons, forall_eq_or_imp]
        constructor
        · intro _
          exact ⟨ha, hb, hiff.mp trivial⟩
        · intro _
          trivial

theorem decode_hex_pairs_ok_spec :
    ∀ l : List Nat, ∀ bs, decode_hex_pairs l = Except.ok bs →
      bs.length = l.length / 2 ∧
      ∀ i, i < bs.length →
        bs.getD i 0 = 16 * hexv (l.getD (2 * i) 0) + hexv (l.getD (2 * i + 1) 0) := by
  refine @pair_induction
    (fun l => ∀ bs, decode_hex_pairs l = Except.ok bs →
      bs.length = l.length / 2 ∧
      ∀ i, i < bs.length →
        bs.getD i 0 = 16 * hexv (l.getD (2 * i) 0) + hexv (l.getD (2 * i + 1) 0))
    ?_ ?_ ?_
  · intro bs h
    cases h
    exact ⟨rfl, fun i hi => by simp at hi⟩
  · intro x bs h
    cases h
    exact ⟨by simp, fun i hi => by simp at hi⟩
  · intro a b rest ih bs hb
    simp only [decode_hex_pairs] at hb
    by_cases hneg : hex_val a < 0 ∨ hex_val b < 0
    · rw [if_pos hneg] at hb
      cases hb
    · rw [if_neg hneg] at hb
      cases hr : decode_hex_pairs rest with
      | error e2 =>
        rw [hr] at hb
        cases hb
      | ok bs2 =>
        rw [hr] at hb
        cases hb
        obtain ⟨hlen, hval⟩ := ih bs2 hr
        push_neg at hneg
        have ha : isHexDigit a = true := (hex_val_nonneg_iff a).mp (by omega)
        have hb' : isHexDigit b = true := (hex_val_nonneg_iff b).mp (by omega)
        refine ⟨by simp only [List.length_cons, hlen]; omega, ?_⟩
        intro i hi'
        rcases i with _ | i
        · simp only [List.getD_cons_zero, Nat.mul_zero, List.getD_cons_succ]
          have h1 := hex_val_eq_hexv a ha
          have h2 := hex_val_eq_hexv b hb'
          rw [h1, h2]
          omega
        · simp only [List.length_cons] at hi'
          have := hval i (by omega)
          have h3 : 2 * (i + 1) = (2 * i + 1) + 1 := by ring
          have h4 : 2 * (i + 1) + 1 = ((2 * i + 1) + 1) + 1 := by ring
          rw [h4, h3]
          simp only [List.getD_cons_succ]
          exact this

/-! ## Claim theorems -/

/-- C6: for every input byte string, the escaper shared by
`Props::write_escaped` and the facade's `append_escaped` emits, per input
character in order, exactly the specification's escape sequences (`escSpec`):
`\"` and `\\`, the two-character forms for backspace/form-feed/newline/CR/tab,
`\u00XX` (lowercase hex) for the other characters below 0x20, and the
character itself otherwise. -/
theorem C6_escaper_per_character (buf s : List Nat) :
    append_escaped buf s = buf ++ s.flatMap escSpec := by
  exact append_escaped_go_eq s.length s buf le_rfl

/-- C7: the ingest channel discipline of `Worker::enqueue`: an enqueue onto a
channel holding fewer than 10,000 messages appends at the back; at 10,000 the
single front (oldest) message is dropped first; the bound 10,000 is preserved
by every enqueue and holds for every channel reachable from empty; the model
function is total, so the producer never waits for space. -/
theorem C7_bounded_channel_drop_head (q : List Nat) (m : Nat) :
    (q.length ≤ MAX_QUEUE_SIZE → (Worker.enqueue q m).length ≤ MAX_QUEUE_SIZE)
    ∧ (q.length < MAX_QUEUE_SIZE → Worker.enqueue q m = q ++ [m])
    ∧ (MAX_QUEUE_SIZE ≤ q.length → Worker.enqueue q m = q.drop 1 ++ [m])
    ∧ (∀ ms : List Nat, (ms.foldl Worker.enqueue []).length ≤ MAX_QUEUE_SIZE) := by
  refine ⟨enqueue_length_le q m, ?_, ?_, ?_⟩
  · intro h
    simp [Worker.enqueue, Nat.not_le.mpr h]
  · intro h
    simp [Worker.enqueue, h]
  · intro ms
    exact enqueue_foldl_le ms [] (by simp [MAX_QUEUE_SIZE])

/-- C7 witness: the bound, the append equation and the drop-head equation at
concrete channels. -/
theorem C7_bounded_channel_drop_head_witness :
    (Worker.enqueue [1, 2, 3] 4 = [1, 2, 3, 4])
    ∧ (Worker.enqueue (List.replicate MAX_QUEUE_SIZE 0) 4
        = (List.replicate MAX_QUEUE_SIZE 0).drop 1 ++ [4])
    ∧ ((Worker.enqueue (List.replicate MAX_QUEUE_SIZE 0) 4).length
        ≤ MAX_QUEUE_SIZE) := by
  refine ⟨(C7_bounded_channel_drop_head [1, 2, 3] 4).2.1 (by norm_num [MAX_QUEUE_SIZE]),
    (C7_bounded_channel_drop_head (List.replicate MAX_QUEUE_SIZE 0) 4).2.2.1
      (by rw [List.length_replicate]),
    (C7_bounded_channel_drop_head (List.replicate MAX_QUEUE_SIZE 0) 4).1
      (by rw [List.length_replicate])⟩

/-- C8: `validate_and_decode_api_key` succeeds if and only if the api_key is
exactly 32 characters, each a hex digit `[0-9a-fA-F]`; every failure is a
Configuration error; on success it returns 16 bytes with byte `i` equal to
16 times the value of character `2i` plus the value of character `2i+1`; and
`TellConfigBuilder::build` runs exactly this check at construction, forwarding
its result. -/
theorem C8_api_key_validation (key : List Nat) :
    ((validate_and_decode_api_key key).isOk = true ↔
      (key.length = 32 ∧ ∀ c ∈ key, isHexDigit c = true))
    ∧ (∀ e, validate_and_decode_api_key key = Except.error e →
        e.kind = ErrorKind.Configuration)
    ∧ (∀ bs, validate_and_decode_api_key key = Except.ok bs →
        bs.length = 16 ∧ ∀ i, i < 16 →
          bs.getD i 0 = 16 * hexv (key.getD (2 * i) 0) + hexv (key.getD (2 * i + 1) 0))
    ∧ (TellConfigBuilder.build key =
        (validate_and_decode_api_key key).map (fun bs => { api_key_bytes := bs })) := by
  refine ⟨?_, ?_, ?_, ?_⟩
  · by_cases hlen : key.length = 32
    · rw [validate_and_decode_api_key, if_neg (by omega)]
      rw [decode_hex_pairs_ok_iff key (by omega)]
      simp [hlen]
    · rw [validate_and_decode_api_key, if_pos (by omega)]
      simp only [Except.isOk, Except.toBool, Bool.false_eq_true, false_iff]
      intro ⟨h, _⟩
      exact hlen h
  · intro e he
    rw [validate_and_decode_api_key] at he
    split_ifs at he with hlen
    · cases he
      rfl
    · exact decode_hex_pairs_error_kind key e he
  · intro bs hb
    by_cases hlen : key.length = 32
    · rw [validate_and_decode_api_key, if_neg (by omega)] at hb
      obtain ⟨h1, h2⟩ := decode_hex_pairs_ok_spec key bs hb
      refine ⟨by omega, ?_⟩
      intro i hi
      exact h2 i (by omega)
    · rw [validate_and_decode_api_key, if_pos (by omega)] at hb
      cases hb
  · rw [TellConfigBuilder.build]
    cases validate_and_decode_api_key key <;> rfl

/-- C8 witness: the check at a concrete valid 32-character key and the first
decoded byte value. -/
theorem C8_api_key_validation_witness :
    ((validate_and_decode_api_key
      (strBytes ("a1b2c3d4e5f60718293a4b5c6d7e8f90"))).isOk = true)
    ∧ (∀ bs, validate_and_decode_api_key
        (strBytes ("a1b2c3d4e5f60718293a4b5c6d7e8f90")) = Except.ok bs →
        bs.length = 16 ∧ bs.getD 0 0 = 161)
    ∧ (∀ e, validate_and_decode_api_key (strBytes ("zz")) = Except.error e →
        e.kind = ErrorKind.Configuration) := by
  refine ⟨(C8_api_key_validation _).1.mpr (by decide), ?_, ?_⟩
  · intro bs hb
    obtain ⟨h1, h2⟩ := (C8_api_key_validation _).2.2.1 bs hb
    refine ⟨h1, ?_⟩
    have := h2 0 (by decide)
    rw [this]
    decide
  · intro e he
    exact (C8_api_key_validation _).2.1 e he

/-- C9: a retry worker sends at most `max_retries` times; every send attempt
is immediately preceded by a sleep (so it sleeps before every attempt,
including the first); if some attempt in range succeeds, no error is reported
and the trace ends at the first successful send; if all attempts fail, exactly
one error is reported, it is the last action, and it is a Network error whose
message indicates retry exhaustion. -/
theorem C9_retry_worker (mr : Nat) (ok : Nat → Bool) :
    ((retry_send mr ok).countP RetryEvent.isSend ≤ mr)
    ∧ (∀ k b, (retry_send mr ok)[k]? = some (RetryEvent.sendAttempt b) →
        ∃ j, k = j + 1 ∧ (retry_send mr ok)[j]? = some RetryEvent.sleep)
    ∧ ((∃ i, 1 ≤ i ∧ i ≤ mr ∧ ok i = true) →
        (retry_send mr ok).countP RetryEvent.isReport = 0 ∧
        (retry_send mr ok).getLast? = some (RetryEvent.sendAttempt true))
    ∧ ((∀ i, 1 ≤ i → i ≤ mr → ok i = false) →
        (retry_send mr ok).countP RetryEvent.isReport = 1 ∧
        (retry_send mr ok).getLast? =
          some (RetryEvent.reportError (retryExhaustedError mr)) ∧
        (retryExhaustedError mr).kind = ErrorKind.Network) := by
  refine ⟨retry_send_go_send_count mr ok mr 1,
    retry_send_go_sleep_before mr ok mr 1, ?_, ?_⟩
  · intro ⟨i, h1, h2, h3⟩
    exact retry_send_go_success mr ok mr 1 ⟨i, h1, by omega, h3⟩
  · intro h
    obtain ⟨hc, hl⟩ := retry_send_go_fail mr ok mr 1
      (fun i h1 h2 => h i h1 (by omega))
    exact ⟨hc, hl, rfl⟩

/-- C3: every ingest call whose input fails validation (empty user_id, empty
or over-256-byte event_name, empty group_id/previous_id/currency/order_id,
amount not strictly positive, empty or over-65,536-byte log message,
over-256-byte service) returns after reporting exactly one Validation error
through the callback and enqueues nothing (`failsValidation` holds: the result
is a single `Except.error` whose kind is Validation, so no record reaches the
worker channel). -/
theorem C3_validation_failures
    (sp : PropMap) (ts : Nat) (dev sess : List Nat)
    (uid en gid pid cur oid msg svc : List Nat) (amount : ℚ)
    (amount_str : List Nat) (props : Props) (level : LogLevel) :
    ((uid = [] ∨ en = [] ∨ 256 < en.length) →
      failsValidation (Client.track sp ts dev sess uid en props) = true)
    ∧ (uid = [] →
      failsValidation (Client.identify ts dev sess uid props) = true)
    ∧ ((uid = [] ∨ gid = []) →
      failsValidation (Client.group sp ts dev sess uid gid props) = true)
    ∧ ((uid = [] ∨ amount ≤ 0 ∨ cur = [] ∨ oid = []) →
      failsValidation
        (Client.revenue sp ts dev sess uid amount amount_str cur oid props) = true)
    ∧ ((pid = [] ∨ uid = []) →
      failsValidation (Client.alias ts dev sess pid uid) = true)
    ∧ ((msg = [] ∨ 65536 < msg.length ∨ 256 < svc.length) →
      failsValidation (Client.log ts sess level msg svc props) = true) := by
  refine ⟨?_, ?_, ?_, ?_, ?_, ?_⟩
  · rintro (rfl | h)
    · simp [Client.track, check_user_id, failsValidation, TellError.validation]
    · by_cases hu : uid = []
      · subst hu
        simp [Client.track, check_user_id, failsValidation, TellError.validation]
      · have hen : check_event_name en = false := by
          rcases h with rfl | h <;> simp [check_event_name] <;> omega
        simp [Client.track, check_user_id, hu, hen, failsValidation,
          TellError.validation]
  · rintro rfl
    simp [Client.identify, check_user_id, failsValidation, TellError.validation]
  · rintro (rfl | rfl)
    · simp [Client.group, check_user_id, failsValidation, TellError.validation]
    · by_cases hu : uid = []
      · subst hu
        simp [Client.group, check_user_id, failsValidation, TellError.validation]
      · simp [Client.group, check_user_id, hu, failsValidation,
          TellError.validation]
  · intro h
    by_cases hu : uid = []
    · subst hu
      simp [Client.revenue, check_user_id, failsValidation, TellError.validation]
    · by_cases ha : amount ≤ 0
      · simp [Client.revenue, check_user_id, hu, ha, failsValidation,
          TellError.validation]
      · have h' : cur = [] ∨ oid = [] := by tauto
        by_cases hc : cur = []
        · subst hc
          simp [Client.revenue, check_user_id, hu, ha, failsValidation,
            TellError.validation]
        · have ho : oid = [] := by tauto
          subst ho
          simp [Client.revenue, check_user_id, hu, ha, hc, failsValidation,
            TellError.validation]
  · rintro (rfl | rfl)
    · simp [Client.alias, failsValidation, TellError.validation]
    · by_cases hp : pid = []
      · subst hp
        simp [Client.alias, failsValidation, TellError.validation]
      · simp [Client.alias, check_user_id, hp, failsValidation,
          TellError.validation]
  · intro h
    by_cases hm : check_log_message msg = false
    · simp [Client.log, hm, failsValidation, TellError.validation]
    · have hsv : check_service_name svc = false := by
        simp only [Bool.not_eq_false] at hm
        simp only [check_log_message, Bool.and_eq_true, Bool.not_eq_true',
          List.isEmpty_eq_false, decide_eq_true_eq] at hm
        rcases h with rfl | h | h
        · simp at hm
        · omega
        · simp [check_service_name]
          omega
      simp only [Bool.not_eq_false] at hm
      simp [Client.log, hm, hsv, failsValidation, TellError.validation]

/-- C3 witness: each of the six operations at a concrete invalid input
reports a Validation error and enqueues nothing. -/
theorem C3_validation_failures_witness :
    (failsValidation (Client.track [] 0 [] [] [] (strBytes ("E")) Props.mk0) = true)
    ∧ (failsValidation (Client.identify 0 [] [] [] Props.mk0) = true)
    ∧ (failsValidation (Client.group [] 0 [] [] (strBytes ("u")) [] Props.mk0) = true)
    ∧ (failsValidation (Client.revenue [] 0 [] [] (strBytes ("u")) (-1) []
        (strBytes ("USD")) (strBytes ("o")) Props.mk0) = true)
    ∧ (failsValidation (Client.alias 0 [] [] [] (strBytes ("u"))) = true)
    ∧ (failsValidation
        (Client.log 0 [] LogLevel.Info [] [] Props.mk0) = true) := by
  refine ⟨(C3_validation_failures [] 0 [] [] [] (strBytes ("E")) [] [] [] [] [] []
      0 [] Props.mk0 LogLevel.Info).1 (Or.inl rfl),
    (C3_validation_failures [] 0 [] [] [] [] [] [] [] [] [] [] 0 [] Props.mk0
      LogLevel.Info).2.1 rfl,
    (C3_validation_failures [] 0 [] [] (strBytes ("u")) [] [] [] [] [] [] []
      0 [] Props.mk0 LogLevel.Info).2.2.1 (Or.inr rfl),
    (C3_validation_failures [] 0 [] [] (strBytes ("u")) [] [] [] (strBytes ("USD"))
      (strBytes ("o")) [] [] (-1) [] Props.mk0 LogLevel.Info).2.2.2.1
      (Or.inr (Or.inl (by norm_num))),
    (C3_validation_failures [] 0 [] [] (strBytes ("u")) [] [] [] [] [] [] []
      0 [] Props.mk0 LogLevel.Info).2.2.2.2.1 (Or.inl rfl),
    (C3_validation_failures [] 0 [] [] [] [] [] [] [] [] [] [] 0 [] Props.mk0
      LogLevel.Info).2.2.2.2.2 (Or.inl rfl)⟩

/-- C9 witness: a worker that succeeds on its second of three attempts makes
two sleep-prefixed attempts and reports nothing; a worker that always fails
reports exactly one exhaustion error as its last action. -/
theorem C9_retry_worker_witness :
    ((retry_send 3 (fun i => i == 2)).countP RetryEvent.isReport = 0 ∧
      (retry_send 3 (fun i => i == 2)).getLast? =
        some (RetryEvent.sendAttempt true))
    ∧ ((retry_send 2 (fun _ => false)).countP RetryEvent.isReport = 1 ∧
      (retry_send 2 (fun _ => false)).getLast? =
        some (RetryEvent.reportError (retryExhaustedError 2)) ∧
      (retryExhaustedError 2).kind = ErrorKind.Network)
    ∧ (∃ j, (3 : Nat) = j + 1 ∧
        (retry_send 3 (fun i => i == 2))[j]? = some RetryEvent.sleep) := by
  refine ⟨(C9_retry_worker 3 (fun i => i == 2)).2.2.1 ⟨2, by decide, by decide, by decide⟩,
    (C9_retry_worker 2 (fun _ => false)).2.2.2 (fun i h1 h2 => rfl),
    (C9_retry_worker 3 (fun i => i == 2)).2.1 3 true (by decide)⟩

end Tell
